import Mathlib

/-!
# Verification of the consistent-character batch pipeline

A shallow embedding of the core logic of the consistent-character image
generator: the scene parser (`handleFileChange`), the two service wrappers
(`generateCharacterJson`, `generateImageFromPrompt`), the full-batch run
(`handleGenerateAll`), the single-item re-run (`handleRegenerate`) and the
image export (`handleDownloadImage`).

JSON values produced by `JSON.parse` are modelled by the inductive `Json`
(numbers as integers; no claim here inspects a numeric value beyond its not
being a string).  The two outbound AI calls are modelled as oracle
parameters: the batch run receives one oracle per call site, indexed by the
item position, so a theorem can speak about the call made for each item.
-/

namespace AutoBanana

/-- A JSON value, as produced by `JSON.parse`.  Objects are association
lists of keys in insertion order (as `JSON.parse` yields). -/
inductive Json where
  | null : Json
  | bool (b : Bool) : Json
  | num (n : Int) : Json
  | str (s : String) : Json
  | arr (elems : List Json) : Json
  | obj (fields : List (String × Json)) : Json
deriving Repr

/-- JavaScript whitespace recognised by `String.prototype.trim`:
WhiteSpace and LineTerminator code points. -/
def jsWhitespace (c : Char) : Bool :=
  [' ', '\t', '\n', '\r', '\u000b', '\u000c', ' ', ' ',
   ' ', ' ', ' ', ' ', ' ', ' ', ' ',
   ' ', ' ', ' ', ' ', ' ', ' ', ' ',
   ' ', '　', '﻿'].contains c

/-- JavaScript `String.prototype.trim`: strip leading and trailing
whitespace. -/
def jsTrim (s : String) : String :=
  ⟨((s.data.dropWhile jsWhitespace).reverse.dropWhile jsWhitespace).reverse⟩

/-- Property read on a JS object: the value stored under key `k`
(`undefined`, i.e. `none`, when absent).  `JSON.parse` keeps the last
duplicate binding, so the last matching binding wins. -/
def getProp (fields : List (String × Json)) (k : String) : Option Json :=
  ((fields.filter (fun p => p.1 = k)).getLast?).map (fun p => p.2)

/-- JS property access `item[k]` on an arbitrary parsed JSON value: only
objects carry string-keyed own properties; on every other value (including
arrays, whose parsed form has no such keys) the read yields `undefined`. -/
def jGet (item : Json) (k : String) : Option Json :=
  match item with
  | .obj fields => getProp fields k
  | _ => none

/-- JS truthiness of a parsed JSON value. -/
def jsTruthy : Json → Bool
  | .null => false
  | .bool b => b
  | .num n => n ≠ 0
  | .str s => s ≠ ""
  | .arr _ => true
  | .obj _ => true

mutual

/-- JS string conversion of a parsed JSON value, as performed by a template
literal: `null` prints as `"null"`, arrays join their elements with commas
(with `null` elements printing empty), plain objects print as
`[object Object]`. -/
def jsValToString : Json → String
  | .null => "null"
  | .bool b => if b then "true" else "false"
  | .num n => toString n
  | .str s => s
  | .obj _ => "[object Object]"
  | .arr xs => jsArrToString xs

/-- `Array.prototype.toString`: elements joined by commas, `null` rendered
as the empty string. -/
def jsArrToString : List Json → String
  | [] => ""
  | x :: rest =>
    (match x with
     | .null => ""
     | v => jsValToString v) ++
    (match rest with
     | [] => ""
     | _ => "," ++ jsArrToString rest)

end

/-- Interpolation `${v}` of a possibly-`undefined` JS value. -/
def jsTemplateVal : Option Json → String
  | none => "undefined"
  | some v => jsValToString v

/-! ## Data model (`types.ts`) -/

/-- `SceneStatus` from `types.ts`. -/
inductive SceneStatus where
  | pending : SceneStatus
  | analyzing : SceneStatus
  | generating : SceneStatus
  | complete : SceneStatus
  | error : SceneStatus
deriving Repr, DecidableEq

/-- A terminal status: `complete` or `error`. -/
def SceneStatus.isTerminal : SceneStatus → Bool
  | .complete => true
  | .error => true
  | _ => false

/-- `SceneResult` from `types.ts`.  `jsonPrompt` holds whatever JSON value
the prompt call produced (the TS code casts it unchecked), `none` standing
for the TS `null`. -/
structure SceneResult where
  id : Nat
  scene : String
  jsonPrompt : Option Json
  image : Option String
  status : SceneStatus
  error : Option String
deriving Repr

/-- The pinned base character: `Pick<CharacterPrompt, 'character_id' | 'appearance'>`.
Both fields are read off the prompt JSON by plain property access, so each
may be `undefined` (`none`) when the JSON lacks it. -/
structure Identity where
  character_id : Option Json
  appearance : Option Json
deriving Repr

/-- The pinning step `{ character_id: jsonPrompt.character_id, appearance:
jsonPrompt.appearance }` for a non-`null` prompt JSON. -/
def pinIdentity (j : Json) : Identity :=
  ⟨jGet j "character_id", jGet j "appearance"⟩

/-! ## Service wrappers (`services/geminiService.ts`) -/

/-- The text of a model response, abstracted by its `JSON.parse` outcome:
either text that parses to a JSON value, or text that does not parse. -/
inductive RawText where
  | json (j : Json) : RawText
  | invalid : RawText
deriving Repr

/-- `JSON.parse` on a response text: the value, or failure. -/
def jsonParseRaw : RawText → Option Json
  | .json j => some j
  | .invalid => none

/-- `generateCharacterJson`, given the outcome of the underlying
`ai.models.generateContent` call (a rejection message, or the response
text): a rejected call propagates its error; a fulfilled call's text is
`JSON.parse`d, failure turning into the wrapper's own error; a parsed
value is returned as-is (the TS code casts it to `CharacterPrompt`
without any shape check). -/
def generateCharacterJson (call : Except String RawText) : Except String Json :=
  match call with
  | .error e => .error e
  | .ok raw =>
    match jsonParseRaw raw with
    | some j => .ok j
    | none => .error "The API returned an invalid JSON format."

/-- One part of the image response: `inlineData.data` when the part
carries inline data, `none` otherwise. -/
structure Part where
  inlineData : Option String
deriving Repr

/-- `generateImageFromPrompt`, given the outcome of the underlying call
(a rejection message, or the parts of `candidates[0].content`): a rejected
call propagates its error; otherwise the first part with `inlineData`
yields its `data`, and if no part carries inline data the wrapper fails. -/
def generateImageFromPrompt (call : Except String (List Part)) : Except String String :=
  match call with
  | .error e => .error e
  | .ok parts =>
    match parts.findSome? (fun p => p.inlineData) with
    | some data => .ok data
    | none => .error "No image data found in the API response."

/-- Modelled from the spec: the expected `StructuredPrompt` shape — required
fields `character_id`, `appearance{gender,hair,eyes,clothing,age}`,
`scene{context,action}`, `style`, all string-valued leaves.  The TS wrapper
performs no such check; this predicate exists to compare the wrapper's
behaviour against the spec's shape requirement. -/
def specStructuredPromptShape (j : Json) : Bool :=
  match j with
  | .obj fs =>
    (match getProp fs "character_id" with
     | some (.str _) => true
     | _ => false) &&
    (match getProp fs "appearance" with
     | some (.obj afs) =>
       ["gender", "hair", "eyes", "clothing", "age"].all fun k =>
         match getProp afs k with
         | some (.str _) => true
         | _ => false
     | _ => false) &&
    (match getProp fs "scene" with
     | some (.obj sfs) =>
       (match getProp sfs "context" with
        | some (.str _) => true
        | _ => false) &&
       (match getProp sfs "action" with
        | some (.str _) => true
        | _ => false)
     | _ => false) &&
    (match getProp fs "style" with
     | some (.str _) => true
     | _ => false)
  | _ => false

/-! ## Scene parser (`handleFileChange`) -/

/-- The recognised object keys, in priority order. -/
def potentialKeys : List String := ["scene", "prompt", "description", "text"]

/-- The key loop of `handleFileChange`: the first key whose value is a
string with non-empty trimmed content yields that trimmed string; any
other value (absent, non-string, or whitespace-only string) is skipped. -/
def descFromKeys (item : Json) : List String → Option String
  | [] => none
  | k :: rest =>
    match jGet item k with
    | some (.str s) =>
      if jsTrim s ≠ "" then some (jsTrim s) else descFromKeys item rest
    | _ => descFromKeys item rest

/-- The per-entry description extraction of `handleFileChange`: a string
entry is accepted when its trimmed text is non-empty; an object (or array:
`typeof` is `'object'` for both, and a parsed array carries none of the
keys) consults the recognised keys in priority order; everything else is
rejected. -/
def extractDescription (item : Json) : Option String :=
  match item with
  | .str s => if jsTrim s ≠ "" then some (jsTrim s) else none
  | .obj _ => descFromKeys item potentialKeys
  | .arr _ => descFromKeys item potentialKeys
  | _ => none

/-- The error message thrown for an entry without a usable description. -/
def invalidItemMsg (idx : Nat) : String :=
  "Item at index " ++ toString idx ++
    " is invalid. It must be a non-empty string, or an object with a \"scene\", \"prompt\", \"description\", or \"text\" property."

/-- The error message thrown for a non-array root. -/
def rootNotArrayMsg : String := "The root of the JSON file must be an array `[]`."

/-- The error message thrown for an empty array. -/
def emptyArrayMsg : String := "The JSON array cannot be empty."

/-- The `parsedJson.map` body of `handleFileChange`, carried out over the
list with the running index: the first entry without a usable description
aborts the whole parse with its index in the message. -/
def parseItems : List Json → Nat → Except String (List SceneResult)
  | [], _ => .ok []
  | item :: rest, idx =>
    match extractDescription item with
    | none => .error (invalidItemMsg idx)
    | some d =>
      match parseItems rest (idx + 1) with
      | .error e => .error e
      | .ok l =>
        .ok ({ id := idx, scene := d, jsonPrompt := none, image := none,
               status := .pending, error := none } :: l)

/-- The validation part of `handleFileChange` on an already-`JSON.parse`d
top-level value: root must be an array, the array must be non-empty, and
every entry must yield a description. -/
def parseScenes (j : Json) : Except String (List SceneResult) :=
  match j with
  | .arr items =>
    if items.length = 0 then .error emptyArrayMsg
    else parseItems items 0
  | _ => .error rootNotArrayMsg

/-- The observable outcome of `handleFileChange`'s `onload` handler on a
parsed file: on success the scene items and no file error; on any parse
failure an empty item list (the `catch` sets `results` to `[]`) and the
error message prefixed with the file name. -/
def fileChangeResults (fileName : String) (j : Json) :
    List SceneResult × Option String :=
  match parseScenes j with
  | .ok rs => (rs, none)
  | .error e => ([], some ("Error in " ++ fileName ++ ": " ++ e))

/-! ## Application state and the batch pipeline (`App.tsx`) -/

/-- The React state of the `App` component that the core logic touches.
`editedJsonText` is a string in TS; it is modelled by its `JSON.parse`
outcome (`RawText`), which is all the code observes of it. -/
structure AppState where
  results : List SceneResult
  isProcessing : Bool
  fileName : String
  progressMessage : String
  baseCharacterProfile : Option Identity
  completedCount : Nat
  fileError : Option String
  editingScene : Option SceneResult
  editedJsonText : RawText
  jsonEditError : Option String
  isRegenerating : Bool
deriving Repr

/-- The `setResults(prev => prev.map(r => r.id === i ? f r : r))` update
pattern used throughout `App.tsx`. -/
def setItem (rs : List SceneResult) (i : Nat) (f : SceneResult → SceneResult) :
    List SceneResult :=
  rs.map (fun r => if r.id = i then f r else r)

/-- `data:image/png;base64,` prefix attached to stored image data. -/
def dataUrl (d : String) : String := "data:image/png;base64," ++ d

/-- The engine error raised when item 0's prompt JSON is `null` and the
pinning step reads `.character_id` off it (a `TypeError`, caught by the
item's `catch` like any other failure; the exact engine wording is
abstracted by this fixed message). -/
def nullPinMsg : String := "Cannot read properties of null"

/-- Oracle for the prompt call of the batch loop: the outcome of the
`generateContent` request made for item `i` with the given pinned base
character (the wrapper `generateCharacterJson` is applied to it, exactly as
the loop calls the wrapper). -/
def PromptOracle := Nat → Option Identity → Except String RawText

/-- Oracle for the image call of the batch loop: the outcome of the
`generateContent` request made for item `i` with the given prompt JSON. -/
def ImageOracle := Nat → Json → Except String (List Part)

/-- Loop-carried state of `handleGenerateAll`: the React state, the local
`baseCharacter` variable, and the trace of prompt calls made so far (each
recorded as the item index together with the base character passed). -/
structure RunState where
  app : AppState
  base : Option Identity
  calls : List (Nat × Option Identity)
deriving Repr

/-- The success continuation after a prompt call in the loop body: store
the prompt and move to `generating`, make the image call, then either
complete with the data-URL image or record the error; the `finally`
increments the processed count. -/
def afterPrompt (iApi : ImageOracle) (i : Nat) (j : Json) (b : Option Identity)
    (app : AppState) (calls : List (Nat × Option Identity)) : RunState :=
  let app2 := { app with
    results := setItem app.results i fun r =>
      { r with status := .generating, jsonPrompt := some j } }
  match generateImageFromPrompt (iApi i j) with
  | .ok data =>
    let app3 := { app2 with
      results := setItem app2.results i fun r =>
        { r with status := .complete, jsonPrompt := some j,
                 image := some (dataUrl data), error := none } }
    ⟨{ app3 with completedCount := app3.completedCount + 1 }, b, calls⟩
  | .error e =>
    let app3 := { app2 with
      results := setItem app2.results i fun r =>
        { r with status := .error, error := some e } }
    ⟨{ app3 with completedCount := app3.completedCount + 1 }, b, calls⟩

/-- One iteration of the `for` loop of `handleGenerateAll` for index `i`:
post the progress message, move the item to `analyzing`, call the prompt
wrapper with the current base character; on failure record the error, on
success pin the base character when `i = 0` (a `null` prompt JSON makes the
pinning property read throw, which the `catch` turns into an item error
without pinning), then run the image stage; the `finally` increments the
processed count on every path.  `scenes` is the `results` array captured by
the callback's closure when the run started. -/
def stepItem (pApi : PromptOracle) (iApi : ImageOracle)
    (scenes : List SceneResult) (rs : RunState) (i : Nat) : RunState :=
  let sceneText := ((scenes.get? i).map (fun s => s.scene)).getD ""
  let app0 := { rs.app with
    progressMessage := "Processing scene " ++ toString (i + 1) ++ " of " ++
      toString scenes.length ++ ": \"" ++ sceneText ++ "\"" }
  let app1 := { app0 with
    results := setItem app0.results i fun r => { r with status := .analyzing } }
  let calls' := rs.calls ++ [(i, rs.base)]
  match generateCharacterJson (pApi i rs.base) with
  | .error e =>
    let app2 := { app1 with
      results := setItem app1.results i fun r =>
        { r with status := .error, error := some e } }
    ⟨{ app2 with completedCount := app2.completedCount + 1 }, rs.base, calls'⟩
  | .ok j =>
    if i = 0 then
      match j with
      | .null =>
        let app2 := { app1 with
          results := setItem app1.results i fun r =>
            { r with status := .error, error := some nullPinMsg } }
        ⟨{ app2 with completedCount := app2.completedCount + 1 }, rs.base, calls'⟩
      | _ =>
        let b := some (pinIdentity j)
        afterPrompt iApi i j b { app1 with baseCharacterProfile := b } calls'
    else
      afterPrompt iApi i j rs.base app1 calls'

/-- The `for` loop of `handleGenerateAll`, iterated over a list of
indices. -/
def runItems (pApi : PromptOracle) (iApi : ImageOracle)
    (scenes : List SceneResult) : List Nat → RunState → RunState
  | [], rs => rs
  | i :: rest, rs => runItems pApi iApi scenes rest (stepItem pApi iApi scenes rs i)

/-- `handleGenerateAll`: no-op when the batch is empty or a run is already
in flight; otherwise reset the processed count, run every index in order
with the base character starting unset, then post the completion message
and clear the processing flag. -/
def handleGenerateAll (pApi : PromptOracle) (iApi : ImageOracle)
    (st : AppState) : AppState :=
  if st.results.length = 0 ∨ st.isProcessing then st
  else
    let scenes := st.results
    let init : RunState :=
      ⟨{ st with isProcessing := true, completedCount := 0 }, none, []⟩
    let rs := runItems pApi iApi scenes (List.range scenes.length) init
    { rs.app with
      progressMessage := "Batch processing complete. " ++
        toString scenes.length ++ " scenes processed.",
      isProcessing := false }

/-- The trace of prompt calls a batch run performs: for each call, the item
index and the base character passed to it. -/
def runTrace (pApi : PromptOracle) (iApi : ImageOracle) (st : AppState) :
    List (Nat × Option Identity) :=
  (runItems pApi iApi st.results (List.range st.results.length)
    ⟨{ st with isProcessing := true, completedCount := 0 }, none, []⟩).calls

/-! ## Single-item re-run (`handleRegenerate`) -/

/-- The message shown when the edited text fails `JSON.parse`. -/
def editErrorMsg : String := "Invalid JSON format. Please check for syntax errors."

/-- `handleRegenerate`: no-op without an item under edit; if the edited
text does not parse, record the edit error and return before any call;
otherwise clear the edit error, mark regenerating, store the edited prompt
on the item and move it to `generating`, close the modal (the close handler
reads the stale `isRegenerating` captured at call time), call the image
wrapper on the edited prompt, and finish the item as `complete` or `error`;
the `finally` clears the regenerating flag.  `iApi` is the outcome of the
underlying image call for a given prompt JSON. -/
def handleRegenerate (iApi : Json → Except String (List Part))
    (st : AppState) : AppState :=
  match st.editingScene with
  | none => st
  | some es =>
    match jsonParseRaw st.editedJsonText with
    | none => { st with jsonEditError := some editErrorMsg }
    | some parsed =>
      let st1 := { st with
        jsonEditError := none,
        isRegenerating := true,
        results := setItem st.results es.id fun r =>
          { r with status := .generating, jsonPrompt := some parsed } }
      let st2 :=
        if st.isRegenerating then st1
        else { st1 with editingScene := none, editedJsonText := .invalid,
                        jsonEditError := none }
      match generateImageFromPrompt (iApi parsed) with
      | .ok data =>
        { st2 with
          results := setItem st2.results es.id fun r =>
            { r with status := .complete, image := some (dataUrl data),
                     error := none },
          isRegenerating := false }
      | .error e =>
        { st2 with
          results := setItem st2.results es.id fun r =>
            { r with status := .error, error := some e },
          isRegenerating := false }

/-! ## Image export (`handleDownloadImage`) -/

/-- `handleDownloadImage`: bail out when the item has no truthy image or no
truthy prompt; otherwise the download is triggered with the file name built
from the item's own prompt's `character_id` property and the item's 1-based
position.  The result is the name of the downloaded file, `none` when no
download happens. -/
def handleDownloadImage (r : SceneResult) : Option String :=
  match r.image, r.jsonPrompt with
  | some img, some p =>
    if img ≠ "" ∧ jsTruthy p then
      some ("scene_" ++ jsTemplateVal (jGet p "character_id") ++ "_" ++
        toString (r.id + 1) ++ ".png")
    else none
  | _, _ => none

/-! ## Parser lemmas -/

/-- A fresh scene item as built by the parser. -/
def mkPending (idx : Nat) (d : String) : SceneResult :=
  { id := idx, scene := d, jsonPrompt := none, image := none,
    status := .pending, error := none }

/-- Whether one recognised key holds a usable description on an entry. -/
def keyQualifies (item : Json) (k : String) : Option String :=
  match jGet item k with
  | some (.str s) => if jsTrim s ≠ "" then some (jsTrim s) else none
  | _ => none

theorem descFromKeys_cons (item : Json) (k : String) (rest : List String) :
    descFromKeys item (k :: rest) =
      match keyQualifies item k with
      | some d => some d
      | none => descFromKeys item rest := by
  cases h : jGet item k with
  | none => simp [descFromKeys, keyQualifies, h]
  | some v =>
    cases v <;> simp [descFromKeys, keyQualifies, h]
    split <;> simp

theorem descFromKeys_eq_none_iff (item : Json) (ks : List String) :
    descFromKeys item ks = none ↔ ∀ k ∈ ks, keyQualifies item k = none := by
  induction ks with
  | nil => simp [descFromKeys]
  | cons k rest ih =>
    rw [descFromKeys_cons]
    cases h : keyQualifies item k with
    | none => simp [h, ih]
    | some d => simp [h]

theorem parseItems_ok (items : List Json) (i0 : Nat)
    (hval : ∀ item ∈ items, (extractDescription item).isSome) :
    ∃ l, parseItems items i0 = .ok l ∧ l.length = items.length ∧
      ∀ m (hm : m < items.length), ∃ d,
        extractDescription (items[m]) = some d ∧
        l[m]? = some (mkPending (i0 + m) d) := by
  induction items generalizing i0 with
  | nil => exact ⟨[], rfl, rfl, fun m hm => absurd hm (by simp)⟩
  | cons item rest ih =>
    have hitem := hval item (by simp)
    obtain ⟨d, hd⟩ := Option.isSome_iff_exists.mp hitem
    obtain ⟨l, hl, hlen, hmem⟩ :=
      ih (i0 + 1) (fun it hit => hval it (by simp [hit]))
    refine ⟨mkPending i0 d :: l, ?_, by simp [hlen], ?_⟩
    · unfold parseItems
      rw [hd, hl]
      rfl
    · intro m hm
      cases m with
      | zero => exact ⟨d, by simpa using hd, by simp⟩
      | succ m' =>
        obtain ⟨d', hd', hl'⟩ := hmem m' (by simpa using hm)
        refine ⟨d', by simpa using hd', ?_⟩
        simpa [Nat.add_assoc, Nat.add_comm 1 m'] using hl'

theorem parseItems_fails (items : List Json) (i0 : Nat) (kbad : Nat)
    (hk : kbad < items.length)
    (hbad : extractDescription (items[kbad]) = none)
    (hgood : ∀ m (hm : m < kbad), (extractDescription (items.get ⟨m, hm.trans hk⟩)).isSome) :
    parseItems items i0 = .error (invalidItemMsg (i0 + kbad)) := by
  induction items generalizing i0 kbad with
  | nil => exact absurd hk (by simp)
  | cons item rest ih =>
    cases kbad with
    | zero =>
      unfold parseItems
      simp only [List.getElem_cons_zero] at hbad
      rw [hbad, Nat.add_zero]
      rfl
    | succ kb =>
      have h0 := hgood 0 (Nat.succ_pos kb)
      obtain ⟨d0, hd0⟩ := Option.isSome_iff_exists.mp h0
      unfold parseItems
      have hd0' : extractDescription item = some d0 := hd0
      rw [hd0']
      have hrest := ih (i0 + 1) kb (by simpa using hk)
        (by simpa using hbad)
        (fun m hm => by simpa using hgood (m + 1) (by omega))
      rw [hrest, Nat.add_assoc, Nat.add_comm 1 kb]

/-! ## Claim theorems: the scene parser -/

/-- C3: for every non-empty list whose entries each carry a usable
description (a non-empty trimmed string, directly or under a recognised
key), parsing succeeds and yields exactly one `SceneItem` per entry, in
input order, each `pending`, with `id` equal to its index and scene text
the trimmed selected string. -/
theorem parser_valid_inputs (fname : String) (items : List Json)
    (hne : items ≠ [])
    (hval : ∀ item ∈ items, (extractDescription item).isSome) :
    ∃ l, parseScenes (Json.arr items) = .ok l ∧
      fileChangeResults fname (Json.arr items) = (l, none) ∧
      l.length = items.length ∧
      ∀ m (hm : m < items.length), ∃ d,
        extractDescription (items[m]) = some d ∧
        l[m]? = some { id := m, scene := d, jsonPrompt := none, image := none,
                       status := .pending, error := none } := by
  obtain ⟨l, hl, hlen, hmem⟩ := parseItems_ok items 0 hval
  have harr : parseScenes (Json.arr items) = .ok l := by
    unfold parseScenes
    have : items.length ≠ 0 := fun h => hne (List.length_eq_zero.mp h)
    simp [this, hl]
  refine ⟨l, harr, by simp [fileChangeResults, harr], hlen, ?_⟩
  intro m hm
  obtain ⟨d, hd, hl'⟩ := hmem m hm
  exact ⟨d, hd, by simpa [mkPending] using hl'⟩

/-- C3 witness: the two-entry input `["a hero walks", {"text": "by a fire"}]`
parses to two pending items. -/
theorem parser_valid_inputs_witness :
    ([Json.str "a hero walks", Json.obj [("text", Json.str "by a fire")]] ≠ []) ∧
    ∃ l, parseScenes (Json.arr [Json.str "a hero walks",
        Json.obj [("text", Json.str "by a fire")]]) = .ok l ∧
      fileChangeResults "scenes.json" (Json.arr [Json.str "a hero walks",
        Json.obj [("text", Json.str "by a fire")]]) = (l, none) ∧
      l.length = 2 ∧
      ∀ m (hm : m < 2), ∃ d,
        extractDescription ([Json.str "a hero walks",
          Json.obj [("text", Json.str "by a fire")]][m]) = some d ∧
        l[m]? = some { id := m, scene := d, jsonPrompt := none, image := none,
                       status := .pending, error := none } :=
  ⟨by simp,
   parser_valid_inputs "scenes.json" _ (by simp)
     (by intro item hitem; fin_cases hitem <;> decide)⟩

/-- C4: an input whose top-level value is not a list, or is an empty list,
or has some entry without a usable description, fails validation — for a
bad entry with the message naming the first offending index — and the
handler keeps zero scene items. -/
theorem parser_invalid_inputs (fname : String) (j : Json) :
    ((∀ xs, j ≠ Json.arr xs) →
      fileChangeResults fname j =
        ([], some ("Error in " ++ fname ++ ": " ++ rootNotArrayMsg))) ∧
    (j = Json.arr [] →
      fileChangeResults fname j =
        ([], some ("Error in " ++ fname ++ ": " ++ emptyArrayMsg))) ∧
    (∀ items kbad (hk : kbad < items.length), j = Json.arr items →
      extractDescription (items[kbad]) = none →
      (∀ m (hm : m < kbad), (extractDescription (items.get ⟨m, hm.trans hk⟩)).isSome) →
      fileChangeResults fname j =
        ([], some ("Error in " ++ fname ++ ": " ++ invalidItemMsg kbad))) := by
  refine ⟨?_, ?_, ?_⟩
  · intro hnot
    cases j <;> first
      | exact absurd rfl (hnot _)
      | rfl
  · rintro rfl
    rfl
  · rintro items kbad hk rfl hbad hgood
    have h := parseItems_fails items 0 kbad hk hbad hgood
    have hne : items.length ≠ 0 := by omega
    simp [fileChangeResults, parseScenes, hne, h]

/-- C4 witness: `{"foo": "bar"}` at index 1 (after one valid entry) is
rejected with a message naming index 1, and no items survive. -/
theorem parser_invalid_inputs_witness :
    (1 : Nat) < ([Json.str "ok", Json.obj [("foo", Json.str "bar")]] : List Json).length ∧
    fileChangeResults "scenes.json"
        (Json.arr [Json.str "ok", Json.obj [("foo", Json.str "bar")]]) =
      ([], some ("Error in " ++ "scenes.json" ++ ": " ++ invalidItemMsg 1)) := by
  refine ⟨by decide, ?_⟩
  exact (parser_invalid_inputs "scenes.json" _).2.2
    [Json.str "ok", Json.obj [("foo", Json.str "bar")]] 1 (by decide) rfl
    (by decide) (by decide)

/-- C10: when parsing an object entry, a recognised key whose value is
absent, not a string, or whitespace-only is skipped and the next key in
priority order is consulted; the entry is rejected exactly when no
recognised key holds a usable string; a qualifying key wins immediately;
and `{"scene": "  ", "prompt": "x"}` parses to `"x"` rather than failing on
the higher-priority key. -/
theorem parser_key_priority :
    (∀ (item : Json) (k : String) (rest : List String),
      keyQualifies item k = none →
      descFromKeys item (k :: rest) = descFromKeys item rest) ∧
    (∀ (item : Json) (k : String) (rest : List String) (d : String),
      keyQualifies item k = some d →
      descFromKeys item (k :: rest) = some d) ∧
    (∀ fields : List (String × Json),
      extractDescription (Json.obj fields) = none ↔
        ∀ k ∈ potentialKeys, keyQualifies (Json.obj fields) k = none) ∧
    extractDescription
        (Json.obj [("scene", Json.str "  "), ("prompt", Json.str "x")]) =
      some "x" := by
  refine ⟨?_, ?_, ?_, by decide⟩
  · intro item k rest h
    rw [descFromKeys_cons, h]
  · intro item k rest d h
    rw [descFromKeys_cons, h]
  · intro fields
    exact descFromKeys_eq_none_iff (Json.obj fields) potentialKeys

/-- C10 witness: on `{"prompt": 7, "description": " d "}` the key `scene`
is absent, `prompt` is skipped for not being a string, and `description`
wins. -/
theorem parser_key_priority_witness :
    keyQualifies (Json.obj [("prompt", Json.num 7), ("description", Json.str " d ")])
        "scene" = none ∧
    descFromKeys (Json.obj [("prompt", Json.num 7), ("description", Json.str " d ")])
        ("scene" :: ["prompt", "description", "text"]) =
      descFromKeys (Json.obj [("prompt", Json.num 7), ("description", Json.str " d ")])
        ["prompt", "description", "text"] :=
  ⟨by decide,
   parser_key_priority.1
     (Json.obj [("prompt", Json.num 7), ("description", Json.str " d ")])
     "scene" ["prompt", "description", "text"] (by decide)⟩

/-! ## Claim theorems: the service wrappers -/

/-- C8 counterexample: a response whose text is `{}` is valid JSON but is
not the expected StructuredPrompt shape, yet `generateCharacterJson`
succeeds and returns it unchanged — the wrapper performs no shape check,
refuting "fails whenever its result cannot be parsed into the expected
StructuredPrompt shape". -/
theorem wrapper_accepts_wrong_shape :
    generateCharacterJson (.ok (.json (Json.obj []))) = .ok (Json.obj []) ∧
    specStructuredPromptShape (Json.obj []) = false :=
  ⟨rfl, rfl⟩

/-- C8 (amended): the prompt wrapper fails exactly when the underlying call
errors or its text is not valid JSON (a parsed value of the wrong shape is
returned as-is); the image wrapper fails when the call errors or no part
carries an image payload, and otherwise returns the data of the first part
with a payload. -/
theorem service_wrapper_errors :
    (∀ e, generateCharacterJson (.error e) = .error e) ∧
    (generateCharacterJson (.ok .invalid) =
      .error "The API returned an invalid JSON format.") ∧
    (∀ j, generateCharacterJson (.ok (.json j)) = .ok j) ∧
    (∀ e, generateImageFromPrompt (.error e) = .error e) ∧
    (∀ parts : List Part, (∀ p ∈ parts, p.inlineData = none) →
      generateImageFromPrompt (.ok parts) =
        .error "No image data found in the API response.") ∧
    (∀ (pre post : List Part) (p : Part) (d : String),
      (∀ q ∈ pre, q.inlineData = none) → p.inlineData = some d →
      generateImageFromPrompt (.ok (pre ++ p :: post)) = .ok d) := by
  refine ⟨fun _ => rfl, rfl, fun _ => rfl, fun _ => rfl, ?_, ?_⟩
  · intro parts hnone
    have h : parts.findSome? (fun p => p.inlineData) = none :=
      List.findSome?_eq_none_iff.mpr hnone
    simp [generateImageFromPrompt, h]
  · intro pre post p d hpre hp
    have h : (pre ++ p :: post).findSome? (fun q => q.inlineData) = some d := by
      induction pre with
      | nil => simp [List.findSome?_cons, hp]
      | cons q rest ih =>
        have hq := hpre q (by simp)
        simp only [List.cons_append, List.findSome?_cons, hq]
        exact ih (fun r hr => hpre r (by simp [hr]))
    simp [generateImageFromPrompt, h]

/-- C8 witness: a response whose first part carries no inline data and
whose second does yields the second part's bytes. -/
theorem service_wrapper_errors_witness :
    generateImageFromPrompt (.ok [⟨none⟩, ⟨some "IMG"⟩]) = .ok "IMG" :=
  service_wrapper_errors.2.2.2.2.2 [⟨none⟩] [] ⟨some "IMG"⟩ "IMG"
    (by simp) rfl

/-! ## `setItem` lemmas -/

theorem setItem_length (rs : List SceneResult) (i : Nat) (f : SceneResult → SceneResult) :
    (setItem rs i f).length = rs.length := by
  simp [setItem]

theorem setItem_getElem? (rs : List SceneResult) (i : Nat)
    (f : SceneResult → SceneResult) (m : Nat) :
    (setItem rs i f)[m]? = (rs[m]?).map fun r => if r.id = i then f r else r := by
  simp [setItem, List.getElem?_map]

/-! ## Concrete fixtures used by counterexamples and witnesses -/

/-- A complete appearance object. -/
def apJ : Json :=
  .obj [("gender", .str "f"), ("hair", .str "h"), ("eyes", .str "e"),
        ("clothing", .str "c"), ("age", .str "a")]

/-- A full structured prompt with the given character id. -/
def promptJ (cid : String) : Json :=
  .obj [("character_id", .str cid), ("appearance", apJ),
        ("scene", .obj [("context", .str "x"), ("action", .str "y")]),
        ("style", .str "s")]

/-- A fresh pending item. -/
def mkItem (i : Nat) (t : String) : SceneResult :=
  { id := i, scene := t, jsonPrompt := none, image := none,
    status := .pending, error := none }

/-- A state with two items, item 0 completed with the pinned prompt
`promptJ "hero_01"` and under edit with text that parses to
`promptJ "char_a"` (a different character id). -/
def stEdit : AppState :=
  { results := [{ mkItem 0 "a" with
                    jsonPrompt := some (promptJ "hero_01"),
                    image := some (dataUrl "OLD"), status := .complete },
                mkItem 1 "b"],
    isProcessing := false, fileName := "f", progressMessage := "",
    baseCharacterProfile := some (pinIdentity (promptJ "hero_01")),
    completedCount := 2, fileError := none,
    editingScene := some { mkItem 0 "a" with
      jsonPrompt := some (promptJ "hero_01"),
      image := some (dataUrl "OLD"), status := .complete },
    editedJsonText := .json (promptJ "char_a"),
    jsonEditError := none, isRegenerating := false }

/-- An image oracle that always succeeds with bytes `"NEW"`. -/
def regenOracle : Json → Except String (List Part) :=
  fun _ => .ok [⟨some "NEW"⟩]

/-! ## Claim theorems: single-item re-run -/

/-- C6 counterexample: re-running item 0 of `stEdit` with the edited prompt
(character id `char_a`) overwrites the item's stored prompt — its
`character_id` goes from `hero_01` to `char_a` — so the re-run does not
modify only the `image`/`status`/`error` fields. -/
theorem regenerate_changes_prompt_field :
    (stEdit.results.map fun r => r.jsonPrompt.map fun p => jGet p "character_id") =
      [some (some (Json.str "hero_01")), none] ∧
    ((handleRegenerate regenOracle stEdit).results.map
        fun r => r.jsonPrompt.map fun p => jGet p "character_id") =
      [some (some (Json.str "char_a")), none] :=
  ⟨rfl, rfl⟩

/-- C6 (amended): a single-item re-run with a well-formed edited prompt
makes no prompt-synthesis call (its outcome depends only on the image call
for the edited prompt), modifies only the target item's
`jsonPrompt`/`image`/`status`/`error` — the stored prompt becomes the edited
prompt and the item ends `complete` or `error` — and leaves the pinned
CharacterIdentity and every other item unchanged. -/
theorem regenerate_frame (iApi iApi' : Json → Except String (List Part))
    (st : AppState) (es : SceneResult) (parsed : Json)
    (hes : st.editingScene = some es)
    (hok : jsonParseRaw st.editedJsonText = some parsed) :
    (handleRegenerate iApi st).baseCharacterProfile = st.baseCharacterProfile ∧
    (handleRegenerate iApi st).results.length = st.results.length ∧
    (∀ (m : Nat) (r : SceneResult), st.results[m]? = some r → r.id ≠ es.id →
      (handleRegenerate iApi st).results[m]? = some r) ∧
    (∀ (m : Nat) (r : SceneResult), st.results[m]? = some r → r.id = es.id →
      ∃ r', (handleRegenerate iApi st).results[m]? = some r' ∧
        r'.id = r.id ∧ r'.scene = r.scene ∧ r'.jsonPrompt = some parsed ∧
        (r'.status = .complete ∨ r'.status = .error)) ∧
    (iApi parsed = iApi' parsed →
      handleRegenerate iApi st = handleRegenerate iApi' st) := by
  have horacle : ∀ heq : iApi parsed = iApi' parsed,
      handleRegenerate iApi st = handleRegenerate iApi' st := by
    intro heq
    simp only [handleRegenerate, hes, hok, heq]
  have hred : (handleRegenerate iApi st).baseCharacterProfile =
        st.baseCharacterProfile ∧
      (handleRegenerate iApi st).results =
        setItem (setItem st.results es.id fun r =>
            { r with status := .generating, jsonPrompt := some parsed }) es.id
          (match generateImageFromPrompt (iApi parsed) with
           | .ok d => fun r =>
               { r with status := .complete, image := some (dataUrl d),
                        error := none }
           | .error e => fun r => { r with status := .error, error := some e }) := by
    cases hreg : st.isRegenerating <;>
      simp only [handleRegenerate, hes, hok, hreg] <;>
      cases generateImageFromPrompt (iApi parsed) <;>
      exact ⟨rfl, rfl⟩
  refine ⟨hred.1, ?_, ?_, ?_, horacle⟩
  · rw [hred.2, setItem_length, setItem_length]
  · intro m r hm hid
    rw [hred.2]
    simp [setItem_getElem?, hm, hid]
  · intro m r hm hid
    rw [hred.2]
    cases generateImageFromPrompt (iApi parsed) with
    | ok d =>
      refine ⟨{ r with
          status := .complete, jsonPrompt := some parsed,
          image := some (dataUrl d), error := none },
        ?_, rfl, rfl, rfl, Or.inl rfl⟩
      simp [setItem_getElem?, hm, hid]
    | error e =>
      refine ⟨{ r with
          status := .error, jsonPrompt := some parsed, error := some e },
        ?_, rfl, rfl, rfl, Or.inr rfl⟩
      simp [setItem_getElem?, hm, hid]

/-- C6 witness: the re-run on `stEdit` leaves the pinned profile and
item 1 unchanged and completes item 0 with the edited prompt. -/
theorem regenerate_frame_witness :
    (handleRegenerate regenOracle stEdit).baseCharacterProfile =
        stEdit.baseCharacterProfile ∧
    (∀ (m : Nat) (r : SceneResult), stEdit.results[m]? = some r → r.id ≠ 0 →
      (handleRegenerate regenOracle stEdit).results[m]? = some r) ∧
    (∀ (m : Nat) (r : SceneResult), stEdit.results[m]? = some r → r.id = 0 →
      ∃ r', (handleRegenerate regenOracle stEdit).results[m]? = some r' ∧
        r'.id = r.id ∧ r'.scene = r.scene ∧
        r'.jsonPrompt = some (promptJ "char_a") ∧
        (r'.status = .complete ∨ r'.status = .error)) := by
  have h := regenerate_frame regenOracle regenOracle stEdit
    stEdit.results[0] (promptJ "char_a") rfl rfl
  exact ⟨h.1, h.2.2.1, h.2.2.2.1⟩

/-- C7: when the edited prompt text is not well-formed JSON, the re-run
records the edit error and returns before any synthesis call (the outcome
does not depend on the image oracle at all), leaving every item — including
the edited one — and the pinned identity exactly as they were. -/
theorem regenerate_invalid_edit (iApi iApi' : Json → Except String (List Part))
    (st : AppState) (es : SceneResult)
    (hes : st.editingScene = some es)
    (hbad : jsonParseRaw st.editedJsonText = none) :
    handleRegenerate iApi st = { st with jsonEditError := some editErrorMsg } ∧
    handleRegenerate iApi st = handleRegenerate iApi' st := by
  constructor <;> simp only [handleRegenerate, hes, hbad]

/-- C7 witness: unparseable edited text on a concrete state only sets the
edit error. -/
theorem regenerate_invalid_edit_witness :
    handleRegenerate regenOracle { stEdit with editedJsonText := .invalid } =
      { { stEdit with editedJsonText := .invalid } with
        jsonEditError := some editErrorMsg } :=
  (regenerate_invalid_edit regenOracle regenOracle
    { stEdit with editedJsonText := .invalid }
    stEdit.results[0] rfl rfl).1

/-! ## Claim theorems: image export -/

/-- C9 counterexample: after re-running item 0 of `stEdit` with an edited
prompt whose character id is `char_a`, the pinned batch identity still
carries `hero_01`, yet the completed item exports as
`scene_char_a_1.png` — the file name is not determined by the pinned
`character_id`. -/
theorem download_name_not_pinned :
    (handleRegenerate regenOracle stEdit).baseCharacterProfile =
      some ⟨some (Json.str "hero_01"), some apJ⟩ ∧
    ((handleRegenerate regenOracle stEdit).results.map handleDownloadImage) =
      [some "scene_char_a_1.png", none] :=
  ⟨rfl, rfl⟩

/-- C9 (amended): the exported file's name is determined by the item's own
stored prompt's `character_id` and the item's 1-based position; it carries
the pinned `character_id` only in so far as the item's stored prompt does. -/
theorem download_name (r : SceneResult) (p : Json) (img : String)
    (hp : r.jsonPrompt = some p) (himg : r.image = some img)
    (h1 : img ≠ "") (h2 : jsTruthy p = true) :
    handleDownloadImage r =
      some ("scene_" ++ jsTemplateVal (jGet p "character_id") ++ "_" ++
        toString (r.id + 1) ++ ".png") := by
  simp [handleDownloadImage, hp, himg, h1, h2]

/-- C9 witness: a completed item at position 3 with prompt id `hero_01`
exports as `scene_hero_01_3.png`. -/
theorem download_name_witness :
    handleDownloadImage { mkItem 2 "t" with
        jsonPrompt := some (promptJ "hero_01"),
        image := some (dataUrl "IMG"), status := .complete } =
      some "scene_hero_01_3.png" := by
  have h := download_name
    { mkItem 2 "t" with
        jsonPrompt := some (promptJ "hero_01"),
        image := some (dataUrl "IMG"), status := .complete }
    (promptJ "hero_01") (dataUrl "IMG") rfl rfl (by decide) (by decide)
  simpa using h

/-! ## Batch-loop lemmas: one step -/

section StepLemmas

variable (pApi : PromptOracle) (iApi : ImageOracle) (scenes : List SceneResult)

theorem afterPrompt_calls (i : Nat) (j : Json) (b : Option Identity)
    (app : AppState) (calls : List (Nat × Option Identity)) :
    (afterPrompt iApi i j b app calls).calls = calls := by
  unfold afterPrompt
  cases generateImageFromPrompt (iApi i j) <;> rfl

theorem afterPrompt_base (i : Nat) (j : Json) (b : Option Identity)
    (app : AppState) (calls : List (Nat × Option Identity)) :
    (afterPrompt iApi i j b app calls).base = b := by
  unfold afterPrompt
  cases generateImageFromPrompt (iApi i j) <;> rfl

theorem afterPrompt_profile (i : Nat) (j : Json) (b : Option Identity)
    (app : AppState) (calls : List (Nat × Option Identity)) :
    (afterPrompt iApi i j b app calls).app.baseCharacterProfile =
      app.baseCharacterProfile := by
  unfold afterPrompt
  cases generateImageFromPrompt (iApi i j) <;> rfl

theorem afterPrompt_count (i : Nat) (j : Json) (b : Option Identity)
    (app : AppState) (calls : List (Nat × Option Identity)) :
    (afterPrompt iApi i j b app calls).app.completedCount =
      app.completedCount + 1 := by
  unfold afterPrompt
  cases generateImageFromPrompt (iApi i j) <;> rfl

theorem afterPrompt_length (i : Nat) (j : Json) (b : Option Identity)
    (app : AppState) (calls : List (Nat × Option Identity)) :
    (afterPrompt iApi i j b app calls).app.results.length =
      app.results.length := by
  unfold afterPrompt
  cases generateImageFromPrompt (iApi i j) <;>
    simp [setItem_length]

theorem afterPrompt_untouched (i : Nat) (j : Json) (b : Option Identity)
    (app : AppState) (calls : List (Nat × Option Identity))
    (m : Nat) (r : SceneResult) (hm : app.results[m]? = some r)
    (hid : r.id ≠ i) :
    (afterPrompt iApi i j b app calls).app.results[m]? = some r := by
  unfold afterPrompt
  cases generateImageFromPrompt (iApi i j) <;>
    simp [setItem_getElem?, hm, hid]

theorem afterPrompt_touched (i : Nat) (j : Json) (b : Option Identity)
    (app : AppState) (calls : List (Nat × Option Identity))
    (m : Nat) (r : SceneResult) (hm : app.results[m]? = some r)
    (hid : r.id = i) :
    ∃ r', (afterPrompt iApi i j b app calls).app.results[m]? = some r' ∧
      r'.id = r.id ∧ r'.scene = r.scene ∧ r'.jsonPrompt = some j ∧
      r'.status.isTerminal = true := by
  unfold afterPrompt
  cases generateImageFromPrompt (iApi i j) with
  | ok d =>
    refine ⟨{ r with
        status := .complete, jsonPrompt := some j,
        image := some (dataUrl d), error := none },
      ?_, rfl, rfl, rfl, rfl⟩
    simp [setItem_getElem?, hm, hid]
  | error e =>
    refine ⟨{ r with
        status := .error, jsonPrompt := some j, error := some e },
      ?_, rfl, rfl, rfl, rfl⟩
    simp [setItem_getElem?, hm, hid]

theorem stepItem_calls (rs : RunState) (i : Nat) :
    (stepItem pApi iApi scenes rs i).calls = rs.calls ++ [(i, rs.base)] := by
  unfold stepItem
  cases generateCharacterJson (pApi i rs.base) with
  | error e => rfl
  | ok j =>
    by_cases hi : i = 0
    · subst hi
      simp only [if_true, reduceIte]
      cases j <;> first | rfl | exact afterPrompt_calls iApi _ _ _ _ _
    · simp only [hi, if_false, reduceIte]
      exact afterPrompt_calls iApi _ _ _ _ _

theorem stepItem_count (rs : RunState) (i : Nat) :
    (stepItem pApi iApi scenes rs i).app.completedCount =
      rs.app.completedCount + 1 := by
  unfold stepItem
  cases generateCharacterJson (pApi i rs.base) with
  | error e => rfl
  | ok j =>
    by_cases hi : i = 0
    · subst hi
      simp only [if_true, reduceIte]
      cases j <;> first | rfl | exact afterPrompt_count iApi _ _ _ _ _
    · simp only [hi, if_false, reduceIte]
      exact afterPrompt_count iApi _ _ _ _ _

theorem stepItem_length (rs : RunState) (i : Nat) :
    (stepItem pApi iApi scenes rs i).app.results.length =
      rs.app.results.length := by
  unfold stepItem
  cases generateCharacterJson (pApi i rs.base) with
  | error e => simp [setItem_length]
  | ok j =>
    by_cases hi : i = 0
    · subst hi
      simp only [if_true, reduceIte]
      cases j <;>
        first
        | (rw [afterPrompt_length]; simp [setItem_length])
        | simp [setItem_length]
    · simp only [hi, if_false, reduceIte]
      rw [afterPrompt_length]
      simp [setItem_length]

theorem stepItem_base_ne_zero (rs : RunState) (i : Nat) (hi : i ≠ 0) :
    (stepItem pApi iApi scenes rs i).base = rs.base ∧
    (stepItem pApi iApi scenes rs i).app.baseCharacterProfile =
      rs.app.baseCharacterProfile := by
  unfold stepItem
  cases generateCharacterJson (pApi i rs.base) with
  | error e => exact ⟨rfl, rfl⟩
  | ok j =>
    simp only [hi, if_false, reduceIte]
    exact ⟨afterPrompt_base iApi _ _ _ _ _,
      (afterPrompt_profile iApi _ _ _ _ _).trans rfl⟩

theorem stepItem_untouched (rs : RunState) (i : Nat)
    (m : Nat) (r : SceneResult) (hm : rs.app.results[m]? = some r)
    (hid : r.id ≠ i) :
    (stepItem pApi iApi scenes rs i).app.results[m]? = some r := by
  unfold stepItem
  cases generateCharacterJson (pApi i rs.base) with
  | error e => simp [setItem_getElem?, hm, hid]
  | ok j =>
    by_cases hi : i = 0
    · subst hi
      simp only [if_true, reduceIte]
      cases j <;>
        first
        | exact afterPrompt_untouched iApi _ _ _ _ _ m r
            (by simp [setItem_getElem?, hm, hid]) hid
        | simp [setItem_getElem?, hm, hid]
    · simp only [hi, if_false, reduceIte]
      exact afterPrompt_untouched iApi _ _ _ _ _ m r
        (by simp [setItem_getElem?, hm, hid]) hid

theorem afterPrompt_touched_terminal (i : Nat) (j : Json) (b : Option Identity)
    (app : AppState) (calls : List (Nat × Option Identity))
    (m : Nat) (r : SceneResult) (hm : app.results[m]? = some r)
    (hid : r.id = i) :
    ∃ r', (afterPrompt iApi i j b app calls).app.results[m]? = some r' ∧
      r'.id = r.id ∧ r'.scene = r.scene ∧ r'.status.isTerminal = true := by
  obtain ⟨r', h1, h2, h3, _, h5⟩ :=
    afterPrompt_touched iApi i j b app calls m r hm hid
  exact ⟨r', h1, h2, h3, h5⟩

theorem stepItem_terminal (rs : RunState) (i : Nat)
    (m : Nat) (r : SceneResult) (hm : rs.app.results[m]? = some r)
    (hid : r.id = i) :
    ∃ r', (stepItem pApi iApi scenes rs i).app.results[m]? = some r' ∧
      r'.id = r.id ∧ r'.scene = r.scene ∧ r'.status.isTerminal = true := by
  unfold stepItem
  cases generateCharacterJson (pApi i rs.base) with
  | error e =>
    refine ⟨{ r with status := .error, error := some e }, ?_, rfl, rfl, rfl⟩
    simp [setItem_getElem?, hm, hid]
  | ok j =>
    by_cases hi : i = 0
    · subst hi
      simp only [if_true, reduceIte]
      cases j
      · refine ⟨{ r with status := .error, error := some nullPinMsg },
          ?_, rfl, rfl, rfl⟩
        simp [setItem_getElem?, hm, hid]
      all_goals
        exact afterPrompt_touched_terminal iApi 0 _ _ _ _ m
          { r with status := .analyzing }
          (by simp [setItem_getElem?, hm, hid]) (by simpa using hid)
    · simp only [hi, if_false, reduceIte]
      exact afterPrompt_touched_terminal iApi i _ _ _ _ m
        { r with status := .analyzing }
        (by simp [setItem_getElem?, hm, hid]) (by simpa using hid)

theorem stepItem_prompt_ne_zero (rs : RunState) (i : Nat) (hi : i ≠ 0)
    (j : Json) (hj : generateCharacterJson (pApi i rs.base) = .ok j)
    (m : Nat) (r : SceneResult) (hm : rs.app.results[m]? = some r)
    (hid : r.id = i) :
    ∃ r', (stepItem pApi iApi scenes rs i).app.results[m]? = some r' ∧
      r'.id = r.id ∧ r'.scene = r.scene ∧ r'.jsonPrompt = some j ∧
      r'.status.isTerminal = true := by
  unfold stepItem
  rw [hj]
  simp only [hi, if_false, reduceIte]
  exact afterPrompt_touched iApi i j _ _ _ m { r with status := .analyzing }
    (by simp [setItem_getElem?, hm, hid]) (by simpa using hid)

theorem stepItem_ids (rs : RunState) (i : Nat) (m : Nat) :
    ((stepItem pApi iApi scenes rs i).app.results[m]?).map (fun r => r.id) =
      (rs.app.results[m]?).map (fun r => r.id) := by
  cases hm : rs.app.results[m]? with
  | none =>
    have hlen : rs.app.results.length ≤ m := by
      exact List.getElem?_eq_none_iff.mp hm
    have : (stepItem pApi iApi scenes rs i).app.results[m]? = none := by
      refine List.getElem?_eq_none_iff.mpr ?_
      rw [stepItem_length]
      exact hlen
    rw [this]
  | some r =>
    by_cases hid : r.id = i
    · obtain ⟨r', h1, h2, _, _⟩ := stepItem_terminal pApi iApi scenes rs i m r hm hid
      rw [h1]
      simp [h2]
    · rw [stepItem_untouched pApi iApi scenes rs i m r hm hid]

end StepLemmas

/-- The base character produced by the pinning step at item 0 for a given
wrapper outcome, falling back to the previous value when the call failed or
the pin threw on a `null` prompt. -/
def pinResult (fallback : Option Identity) : Except String Json → Option Identity
  | .error _ => fallback
  | .ok .null => fallback
  | .ok j => some (pinIdentity j)

section StepZero

variable (pApi : PromptOracle) (iApi : ImageOracle) (scenes : List SceneResult)

theorem stepItem_zero_base (rs : RunState) :
    (stepItem pApi iApi scenes rs 0).base =
      pinResult rs.base (generateCharacterJson (pApi 0 rs.base)) := by
  unfold stepItem
  cases generateCharacterJson (pApi 0 rs.base) with
  | error e => rfl
  | ok j =>
    simp only [if_true, reduceIte]
    cases j
    case null => rfl
    all_goals (rw [afterPrompt_base]; rfl)

theorem stepItem_zero_profile (rs : RunState) :
    (stepItem pApi iApi scenes rs 0).app.baseCharacterProfile =
      pinResult rs.app.baseCharacterProfile
        (generateCharacterJson (pApi 0 rs.base)) := by
  unfold stepItem
  cases generateCharacterJson (pApi 0 rs.base) with
  | error e => rfl
  | ok j =>
    simp only [if_true, reduceIte]
    cases j
    case null => rfl
    all_goals (rw [afterPrompt_profile]; rfl)

end StepZero

/-! ## Batch-loop lemmas: the whole loop -/

section RunLemmas

variable (pApi : PromptOracle) (iApi : ImageOracle) (scenes : List SceneResult)

theorem runItems_append (l1 l2 : List Nat) (rs : RunState) :
    runItems pApi iApi scenes (l1 ++ l2) rs =
      runItems pApi iApi scenes l2 (runItems pApi iApi scenes l1 rs) := by
  induction l1 generalizing rs with
  | nil => rfl
  | cons i rest ih => simp [runItems, ih]

theorem runItems_count (idxs : List Nat) (rs : RunState) :
    (runItems pApi iApi scenes idxs rs).app.completedCount =
      rs.app.completedCount + idxs.length := by
  induction idxs generalizing rs with
  | nil => rfl
  | cons i rest ih =>
    rw [runItems, ih, stepItem_count]
    simp only [List.length_cons]
    omega

theorem runItems_length (idxs : List Nat) (rs : RunState) :
    (runItems pApi iApi scenes idxs rs).app.results.length =
      rs.app.results.length := by
  induction idxs generalizing rs with
  | nil => rfl
  | cons i rest ih => rw [runItems, ih, stepItem_length]

theorem runItems_calls_fst (idxs : List Nat) (rs : RunState) :
    (runItems pApi iApi scenes idxs rs).calls.map Prod.fst =
      rs.calls.map Prod.fst ++ idxs := by
  induction idxs generalizing rs with
  | nil => simp [runItems]
  | cons i rest ih =>
    rw [runItems, ih, stepItem_calls]
    simp

theorem runItems_no_zero (idxs : List Nat) (rs : RunState)
    (h0 : 0 ∉ idxs) :
    (runItems pApi iApi scenes idxs rs).base = rs.base ∧
    (runItems pApi iApi scenes idxs rs).app.baseCharacterProfile =
      rs.app.baseCharacterProfile ∧
    (runItems pApi iApi scenes idxs rs).calls =
      rs.calls ++ idxs.map (fun i => (i, rs.base)) := by
  induction idxs generalizing rs with
  | nil => exact ⟨rfl, rfl, by simp [runItems]⟩
  | cons i rest ih =>
    have hi : i ≠ 0 := fun h => h0 (h ▸ List.mem_cons_self i rest)
    have hrest : 0 ∉ rest := fun h => h0 (List.mem_cons_of_mem i h)
    have hbase := stepItem_base_ne_zero pApi iApi scenes rs i hi
    obtain ⟨ihb, ihp, ihc⟩ := ih (stepItem pApi iApi scenes rs i) hrest
    refine ⟨?_, ?_, ?_⟩
    · rw [runItems, ihb, hbase.1]
    · rw [runItems, ihp, hbase.2]
    · rw [runItems, ihc, stepItem_calls, hbase.1]
      simp

theorem runItems_untouched (idxs : List Nat) (rs : RunState)
    (m : Nat) (r : SceneResult) (hm : rs.app.results[m]? = some r)
    (hr : ∀ i ∈ idxs, r.id ≠ i) :
    (runItems pApi iApi scenes idxs rs).app.results[m]? = some r := by
  induction idxs generalizing rs with
  | nil => exact hm
  | cons i rest ih =>
    rw [runItems]
    exact ih (stepItem pApi iApi scenes rs i)
      (stepItem_untouched pApi iApi scenes rs i m r hm
        (hr i (List.mem_cons_self i rest)))
      (fun i' hi' => hr i' (List.mem_cons_of_mem i hi'))

theorem runItems_ids (idxs : List Nat) (rs : RunState) (m : Nat) :
    ((runItems pApi iApi scenes idxs rs).app.results[m]?).map (fun r => r.id) =
      (rs.app.results[m]?).map (fun r => r.id) := by
  induction idxs generalizing rs with
  | nil => rfl
  | cons i rest ih =>
    rw [runItems, ih, stepItem_ids]

end RunLemmas

/-! ## Concrete fixtures for batch-run witnesses -/

/-- A fresh two-item batch state, as produced by a successful parse. -/
def stRun : AppState :=
  { results := [mkItem 0 "a", mkItem 1 "b"],
    isProcessing := false, fileName := "f", progressMessage := "",
    baseCharacterProfile := none, completedCount := 0, fileError := none,
    editingScene := none, editedJsonText := .invalid,
    jsonEditError := none, isRegenerating := false }

/-- A prompt oracle whose call for item 0 fails and whose later calls
succeed with a fixed full prompt. -/
def pFail : PromptOracle :=
  fun i _ => if i = 0 then .error "boom" else .ok (.json (promptJ "solo"))

/-- An image oracle that always succeeds. -/
def iOk : ImageOracle := fun _ _ => .ok [⟨some "IMG"⟩]

/-! ## Claim theorems: the batch run -/

/-- C5: during a full-batch run the processed count is incremented exactly
once per item, after that item reaches a terminal state: after the first
`k` loop iterations the count is exactly `k`, the first `k` items are
terminal (`complete` or `error`, regardless of oracle outcomes — a per-item
failure does not stop the loop), and the remaining items are untouched;
the items are processed in index order, and when the run finishes the count
equals the batch length and every item is terminal. -/
theorem processed_count_run (pApi : PromptOracle) (iApi : ImageOracle)
    (st : AppState) (hn : 0 < st.results.length)
    (hproc : st.isProcessing = false)
    (hid : ∀ (m : Nat) (r : SceneResult), st.results[m]? = some r → r.id = m) :
    (∀ k, k ≤ st.results.length →
      (runItems pApi iApi st.results (List.range k)
          ⟨{ st with isProcessing := true, completedCount := 0 }, none,
           []⟩).app.completedCount = k ∧
      (∀ (m : Nat) (r : SceneResult), st.results[m]? = some r → m < k →
        ∃ r', (runItems pApi iApi st.results (List.range k)
            ⟨{ st with isProcessing := true, completedCount := 0 }, none,
             []⟩).app.results[m]? = some r' ∧
          r'.id = r.id ∧ r'.scene = r.scene ∧ r'.status.isTerminal = true) ∧
      (∀ (m : Nat) (r : SceneResult), st.results[m]? = some r → k ≤ m →
        (runItems pApi iApi st.results (List.range k)
            ⟨{ st with isProcessing := true, completedCount := 0 }, none,
             []⟩).app.results[m]? = some r)) ∧
    (handleGenerateAll pApi iApi st).completedCount = st.results.length ∧
    (∀ (m : Nat) (r : SceneResult), st.results[m]? = some r →
      ∃ r', (handleGenerateAll pApi iApi st).results[m]? = some r' ∧
        r'.id = r.id ∧ r'.scene = r.scene ∧ r'.status.isTerminal = true) ∧
    (runTrace pApi iApi st).map Prod.fst = List.range st.results.length := by
  have hpre : ∀ k, k ≤ st.results.length →
      (runItems pApi iApi st.results (List.range k)
          ⟨{ st with isProcessing := true, completedCount := 0 }, none,
           []⟩).app.completedCount = k ∧
      (∀ (m : Nat) (r : SceneResult), st.results[m]? = some r → m < k →
        ∃ r', (runItems pApi iApi st.results (List.range k)
            ⟨{ st with isProcessing := true, completedCount := 0 }, none,
             []⟩).app.results[m]? = some r' ∧
          r'.id = r.id ∧ r'.scene = r.scene ∧ r'.status.isTerminal = true) ∧
      (∀ (m : Nat) (r : SceneResult), st.results[m]? = some r → k ≤ m →
        (runItems pApi iApi st.results (List.range k)
            ⟨{ st with isProcessing := true, completedCount := 0 }, none,
             []⟩).app.results[m]? = some r) := by
    intro k
    induction k with
    | zero =>
      intro _
      refine ⟨rfl, ?_, ?_⟩
      · intro m r _ hlt
        exact absurd hlt (Nat.not_lt_zero m)
      · intro m r hm _
        exact hm
    | succ k ihk =>
      intro hk1
      obtain ⟨ihc, iht, ihu⟩ := ihk (Nat.le_of_succ_le hk1)
      rw [List.range_succ, runItems_append]
      set rsk := runItems pApi iApi st.results (List.range k)
        ⟨{ st with isProcessing := true, completedCount := 0 }, none, []⟩ with hrsk
      have hstep : runItems pApi iApi st.results [k] rsk =
          stepItem pApi iApi st.results rsk k := rfl
      rw [hstep]
      refine ⟨?_, ?_, ?_⟩
      · rw [stepItem_count, ihc]
      · intro m r hm hlt
        rcases Nat.lt_succ_iff_lt_or_eq.mp hlt with hmk | hmk
        · obtain ⟨r', h1, h2, h3, h4⟩ := iht m r hm hmk
          refine ⟨r', ?_, h2, h3, h4⟩
          refine stepItem_untouched pApi iApi st.results rsk k m r' h1 ?_
          rw [h2, hid m r hm]
          omega
        · subst hmk
          have hm' : rsk.app.results[m]? = some r := ihu m r hm (Nat.le_refl m)
          exact stepItem_terminal pApi iApi st.results rsk m m r hm' (hid m r hm)
      · intro m r hm hge
        have hm' : rsk.app.results[m]? = some r := ihu m r hm (by omega)
        refine stepItem_untouched pApi iApi st.results rsk k m r hm' ?_
        rw [hid m r hm]
        omega
  have hguard : ¬(st.results.length = 0 ∨ st.isProcessing = true) := by
    simp only [hproc, Bool.false_eq_true, or_false]
    omega
  obtain ⟨hc, ht, hu⟩ := hpre st.results.length (Nat.le_refl _)
  have hrun : handleGenerateAll pApi iApi st =
      { (runItems pApi iApi st.results (List.range st.results.length)
          ⟨{ st with isProcessing := true, completedCount := 0 }, none,
           []⟩).app with
        progressMessage := "Batch processing complete. " ++
          toString st.results.length ++ " scenes processed.",
        isProcessing := false } := by
    unfold handleGenerateAll
    rw [if_neg hguard]
  refine ⟨hpre, ?_, ?_, ?_⟩
  · rw [hrun]
    exact hc
  · intro m r hm
    have hmlt : m < st.results.length := by
      by_contra hge
      rw [List.getElem?_eq_none_iff.mpr (by omega)] at hm
      exact Option.noConfusion hm
    obtain ⟨r', h1, h2, h3, h4⟩ := ht m r hm hmlt
    refine ⟨r', ?_, h2, h3, h4⟩
    rw [hrun]
    exact h1
  · unfold runTrace
    rw [runItems_calls_fst]
    rfl

/-- C5 witness: a two-item batch where item 0's prompt call fails and
item 1 completes still processes both items in order, ends with count 2 and
both items terminal. -/
theorem processed_count_run_witness :
    (0 : Nat) < stRun.results.length ∧
    (handleGenerateAll pFail iOk stRun).completedCount = 2 ∧
    (runTrace pFail iOk stRun).map Prod.fst = [0, 1] ∧
    (∀ (m : Nat) (r : SceneResult), stRun.results[m]? = some r →
      ∃ r', (handleGenerateAll pFail iOk stRun).results[m]? = some r' ∧
        r'.id = r.id ∧ r'.scene = r.scene ∧ r'.status.isTerminal = true) := by
  have h := processed_count_run pFail iOk stRun (by decide) rfl
    (by intro m r hm
        match m, hm with
        | 0, hm => cases hm; rfl
        | 1, hm => cases hm; rfl)
  exact ⟨by decide, h.2.1, h.2.2.2, h.2.2.1⟩

/-- C2: in every batch run, item 0's prompt call is made with no pinned
identity, every later item's prompt call is made with one and the same
base — the pin outcome of item 0's call — and the recorded
CharacterIdentity is written only from item 0's successful prompt
synthesis: when item 0's call fails (or its pinning step throws), the
profile is left untouched (unset in a fresh run) and every later call
carries no pinned identity; the identity is never recomputed within the
run. -/
theorem identity_pinned_once (pApi : PromptOracle) (iApi : ImageOracle)
    (st : AppState) (hn : 0 < st.results.length)
    (hproc : st.isProcessing = false) :
    runTrace pApi iApi st =
      (0, none) :: (List.range' 1 (st.results.length - 1)).map
        (fun i => (i, pinResult none (generateCharacterJson (pApi 0 none)))) ∧
    (handleGenerateAll pApi iApi st).baseCharacterProfile =
      pinResult st.baseCharacterProfile
        (generateCharacterJson (pApi 0 none)) := by
  have hrange : List.range st.results.length =
      0 :: List.range' 1 (st.results.length - 1) := by
    have hn' : st.results.length = (st.results.length - 1) + 1 := by omega
    rw [List.range_eq_range']
    conv_lhs => rw [hn']
    rw [List.range'_succ]
  have h0 : (0 : Nat) ∉ List.range' 1 (st.results.length - 1) := by
    intro hmem
    have := (List.mem_range'_1.mp hmem).1
    omega
  set init : RunState :=
    ⟨{ st with isProcessing := true, completedCount := 0 }, none, []⟩ with hinit
  have hbase0 : (stepItem pApi iApi st.results init 0).base =
      pinResult none (generateCharacterJson (pApi 0 none)) :=
    stepItem_zero_base pApi iApi st.results init
  have hprof0 : (stepItem pApi iApi st.results init 0).app.baseCharacterProfile =
      pinResult st.baseCharacterProfile
        (generateCharacterJson (pApi 0 none)) :=
    stepItem_zero_profile pApi iApi st.results init
  have hcalls0 : (stepItem pApi iApi st.results init 0).calls = [(0, none)] :=
    stepItem_calls pApi iApi st.results init 0
  obtain ⟨hb, hp, hc⟩ := runItems_no_zero pApi iApi st.results
    (List.range' 1 (st.results.length - 1))
    (stepItem pApi iApi st.results init 0) h0
  have hguard : ¬(st.results.length = 0 ∨ st.isProcessing = true) := by
    simp only [hproc, Bool.false_eq_true, or_false]
    omega
  constructor
  · unfold runTrace
    rw [← hinit, hrange]
    have : runItems pApi iApi st.results
        (0 :: List.range' 1 (st.results.length - 1)) init =
        runItems pApi iApi st.results (List.range' 1 (st.results.length - 1))
          (stepItem pApi iApi st.results init 0) := rfl
    rw [this, hc, hcalls0, hbase0]
    rfl
  · unfold handleGenerateAll
    rw [if_neg hguard]
    show (runItems pApi iApi st.results (List.range st.results.length)
        init).app.baseCharacterProfile = _
    rw [hrange]
    have : runItems pApi iApi st.results
        (0 :: List.range' 1 (st.results.length - 1)) init =
        runItems pApi iApi st.results (List.range' 1 (st.results.length - 1))
          (stepItem pApi iApi st.results init 0) := rfl
    rw [this, hp, hprof0]

/-- C2 witness: with an oracle whose item-0 call fails, the two-item run
makes both prompt calls without a pinned identity and leaves the profile
unset. -/
theorem identity_pinned_once_witness :
    runTrace pFail iOk stRun = [(0, none), (1, none)] ∧
    (handleGenerateAll pFail iOk stRun).baseCharacterProfile = none :=
  identity_pinned_once pFail iOk stRun (by decide) rfl

theorem ids_pointwise (xs ys : List SceneResult)
    (h : ∀ m : Nat, (ys[m]?).map (fun r => r.id) = (xs[m]?).map (fun r => r.id))
    (hx : ∀ (m : Nat) (r : SceneResult), xs[m]? = some r → r.id = m) :
    ∀ (m : Nat) (r : SceneResult), ys[m]? = some r → r.id = m := by
  intro m r hm
  have hmap := h m
  rw [hm] at hmap
  cases hx' : xs[m]? with
  | none =>
    rw [hx'] at hmap
    simp at hmap
  | some r0 =>
    rw [hx'] at hmap
    simp at hmap
    have h0 := hx m r0 hx'
    omega

/-- Running the loop over indices `s, s+1, ..., s+k-1` (all non-zero) with
the base character already pinned to `bstar`: every call succeeds by
hypothesis, the base and profile are never rewritten, items below `s` are
untouched, and every processed item ends up storing exactly the JSON its
own prompt call returned. -/
theorem runItems_echo (pApi : PromptOracle) (iApi : ImageOracle)
    (scenes : List SceneResult) (bstar : Identity) :
    ∀ (k s : Nat) (rs : RunState), 1 ≤ s →
    rs.base = some bstar →
    (∀ (m : Nat) (r : SceneResult), rs.app.results[m]? = some r → r.id = m) →
    (∀ i, s ≤ i → i < s + k →
      ∃ j, generateCharacterJson (pApi i (some bstar)) = .ok j) →
    (runItems pApi iApi scenes (List.range' s k) rs).base = some bstar ∧
    (runItems pApi iApi scenes (List.range' s k) rs).app.baseCharacterProfile =
      rs.app.baseCharacterProfile ∧
    (∀ (m : Nat) (r : SceneResult), rs.app.results[m]? = some r → m < s →
      (runItems pApi iApi scenes (List.range' s k) rs).app.results[m]? =
        some r) ∧
    (∀ (m : Nat) (r : SceneResult), rs.app.results[m]? = some r →
      s ≤ m → m < s + k →
      ∃ j r', generateCharacterJson (pApi m (some bstar)) = .ok j ∧
        (runItems pApi iApi scenes (List.range' s k) rs).app.results[m]? =
          some r' ∧ r'.jsonPrompt = some j) := by
  intro k
  induction k with
  | zero =>
    intro s rs hs hbase hids hcall
    exact ⟨hbase, rfl, fun m r hm _ => hm, fun m r hm h1 h2 => absurd h2 (by omega)⟩
  | succ k ih =>
    intro s rs hs hbase hids hcall
    rw [List.range'_succ]
    have hstep : runItems pApi iApi scenes
        (s :: List.range' (s + 1) k) rs =
        runItems pApi iApi scenes (List.range' (s + 1) k)
          (stepItem pApi iApi scenes rs s) := rfl
    rw [hstep]
    set rs1 := stepItem pApi iApi scenes rs s with hrs1
    have hs0 : s ≠ 0 := by omega
    have hbp := stepItem_base_ne_zero pApi iApi scenes rs s hs0
    have hbase1 : rs1.base = some bstar := by rw [← hrs1] at hbp; rw [hbp.1, hbase]
    have hids1 : ∀ (m : Nat) (r : SceneResult), rs1.app.results[m]? = some r → r.id = m :=
      ids_pointwise rs.app.results rs1.app.results
        (fun m => stepItem_ids pApi iApi scenes rs s m) hids
    obtain ⟨ihb, ihp, ihu, ihg⟩ := ih (s + 1) rs1 (by omega) hbase1 hids1
      (fun i h1 h2 => hcall i (by omega) (by omega))
    refine ⟨ihb, ?_, ?_, ?_⟩
    · rw [ihp, hrs1]
      exact hbp.2
    · intro m r hm hlt
      refine ihu m r ?_ (by omega)
      exact stepItem_untouched pApi iApi scenes rs s m r hm
        (by rw [hids m r hm]; omega)
    · intro m r hm h1 h2
      rcases Nat.eq_or_lt_of_le h1 with hms | hms
      · obtain ⟨j, hj⟩ := hcall s (Nat.le_refl s) (by omega)
        have hj' : generateCharacterJson (pApi s rs.base) = .ok j := by
          rw [hbase]; exact hj
        obtain ⟨r', hr1, _, _, hrp, _⟩ :=
          stepItem_prompt_ne_zero pApi iApi scenes rs s hs0 j hj' m r hm
            (by rw [hids m r hm]; exact hms.symm)
        refine ⟨j, r', ?_, ihu m r' hr1 (by omega), hrp⟩
        rw [← hms]
        exact hj
      · have hm1 : rs1.app.results[m]? = some r :=
          stepItem_untouched pApi iApi scenes rs s m r hm
            (by rw [hids m r hm]; omega)
        exact ihg m r hm1 (by omega) (by omega)

/-- C1: in a run where item 0's prompt call succeeds with a shape-complete
StructuredPrompt and every later item's prompt call (made with the pinned
identity) succeeds and — per the Prompt Synthesizer contract — echoes the
supplied `character_id` and `appearance` unchanged, the recorded
CharacterIdentity equals the `character_id`/`appearance` of item 0's
result, and every later item's stored StructuredPrompt carries that same
`character_id` and `appearance`. -/
theorem batch_identity_consistency (pApi : PromptOracle) (iApi : ImageOracle)
    (st : AppState) (hn : 0 < st.results.length)
    (hproc : st.isProcessing = false)
    (hid : ∀ (m : Nat) (r : SceneResult), st.results[m]? = some r → r.id = m)
    (j0 : Json)
    (h0 : generateCharacterJson (pApi 0 none) = .ok j0)
    (hshape : specStructuredPromptShape j0 = true)
    (hsucc : ∀ i, 1 ≤ i → i < st.results.length →
      ∃ j, generateCharacterJson (pApi i (some (pinIdentity j0))) = .ok j)
    (hecho : ∀ i j, 1 ≤ i →
      generateCharacterJson (pApi i (some (pinIdentity j0))) = .ok j →
      jGet j "character_id" = (pinIdentity j0).character_id ∧
      jGet j "appearance" = (pinIdentity j0).appearance) :
    (handleGenerateAll pApi iApi st).baseCharacterProfile =
      some (pinIdentity j0) ∧
    ∀ (m : Nat) (r : SceneResult), st.results[m]? = some r → 1 ≤ m →
      ∃ jm r', (handleGenerateAll pApi iApi st).results[m]? = some r' ∧
        r'.jsonPrompt = some jm ∧
        jGet jm "character_id" = (pinIdentity j0).character_id ∧
        jGet jm "appearance" = (pinIdentity j0).appearance := by
  have hobj : ∃ fs, j0 = Json.obj fs := by
    cases j0 <;> simp_all [specStructuredPromptShape]
  have hrange : List.range st.results.length =
      0 :: List.range' 1 (st.results.length - 1) := by
    have hn' : st.results.length = (st.results.length - 1) + 1 := by omega
    rw [List.range_eq_range']
    conv_lhs => rw [hn']
    rw [List.range'_succ]
  set init : RunState :=
    ⟨{ st with isProcessing := true, completedCount := 0 }, none, []⟩ with hinit
  set s0 := stepItem pApi iApi st.results init 0 with hs0
  have hpin : pinResult none (generateCharacterJson (pApi 0 none)) =
      some (pinIdentity j0) := by
    obtain ⟨fs, hfs⟩ := hobj
    rw [h0, hfs]
    rfl
  have hpin' : pinResult st.baseCharacterProfile
      (generateCharacterJson (pApi 0 none)) = some (pinIdentity j0) := by
    obtain ⟨fs, hfs⟩ := hobj
    rw [h0, hfs]
    rfl
  have hbase0 : s0.base = some (pinIdentity j0) := by
    rw [hs0, stepItem_zero_base]
    exact hpin
  have hprof0 : s0.app.baseCharacterProfile = some (pinIdentity j0) := by
    rw [hs0, stepItem_zero_profile]
    exact hpin'
  have hids0 : ∀ (m : Nat) (r : SceneResult), s0.app.results[m]? = some r →
      r.id = m :=
    ids_pointwise init.app.results s0.app.results
      (fun m => stepItem_ids pApi iApi st.results init 0 m) hid
  obtain ⟨hb, hp, hu, hg⟩ := runItems_echo pApi iApi st.results
    (pinIdentity j0) (st.results.length - 1) 1 s0 (Nat.le_refl 1) hbase0 hids0
    (fun i h1 h2 => hsucc i h1 (by omega))
  have hguard : ¬(st.results.length = 0 ∨ st.isProcessing = true) := by
    simp only [hproc, Bool.false_eq_true, or_false]
    omega
  have hloop : runItems pApi iApi st.results (List.range st.results.length)
      init = runItems pApi iApi st.results
        (List.range' 1 (st.results.length - 1)) s0 := by
    rw [hrange]
    rfl
  constructor
  · unfold handleGenerateAll
    rw [if_neg hguard]
    show (runItems pApi iApi st.results (List.range st.results.length)
      init).app.baseCharacterProfile = _
    rw [hloop, hp, hprof0]
  · intro m r hm h1
    have hmlt : m < st.results.length := by
      by_contra hge
      rw [List.getElem?_eq_none_iff.mpr (by omega)] at hm
      exact Option.noConfusion hm
    have hm0 : s0.app.results[m]? = some r := by
      refine stepItem_untouched pApi iApi st.results init 0 m r hm ?_
      rw [hid m r hm]
      omega
    obtain ⟨jm, r', hjm, hr', hrp⟩ := hg m r hm0 h1 (by omega)
    obtain ⟨hcid, hap⟩ := hecho m jm h1 hjm
    refine ⟨jm, r', ?_, hrp, hcid, hap⟩
    unfold handleGenerateAll
    rw [if_neg hguard]
    show (runItems pApi iApi st.results (List.range st.results.length)
      init).app.results[m]? = some r'
    rw [hloop]
    exact hr'

/-- A prompt oracle that, when given a base character, echoes its
`character_id` and `appearance` and fills in fresh scene and style; with no
base it invents the full prompt `promptJ "hero_01"`. -/
def pEcho : PromptOracle := fun _ b =>
  match b with
  | none => .ok (.json (promptJ "hero_01"))
  | some bb => .ok (.json (.obj
      [("character_id", (bb.character_id).getD .null),
       ("appearance", (bb.appearance).getD .null),
       ("scene", .obj [("context", .str "x2"), ("action", .str "y2")]),
       ("style", .str "s")]))

/-- The prompt `pEcho` returns when given the identity pinned from
`promptJ "hero_01"`. -/
def echoJ : Json :=
  .obj [("character_id", .str "hero_01"), ("appearance", apJ),
        ("scene", .obj [("context", .str "x2"), ("action", .str "y2")]),
        ("style", .str "s")]

theorem stRun_ids : ∀ (m : Nat) (r : SceneResult),
    stRun.results[m]? = some r → r.id = m := by
  intro m r hm
  match m, hm with
  | 0, hm =>
    have hm' : some (mkItem 0 "a") = some r := hm
    injection hm' with h
    subst h
    rfl
  | 1, hm =>
    have hm' : some (mkItem 1 "b") = some r := hm
    injection hm' with h
    subst h
    rfl
  | n + 2, hm =>
    exact Option.noConfusion hm

/-- C1 witness: running the two-item batch with the echoing oracle pins
`hero_01`'s identity and stores it unchanged in item 1's prompt. -/
theorem batch_identity_consistency_witness :
    (handleGenerateAll pEcho iOk stRun).baseCharacterProfile =
      some (pinIdentity (promptJ "hero_01")) ∧
    ∀ (m : Nat) (r : SceneResult), stRun.results[m]? = some r → 1 ≤ m →
      ∃ jm r', (handleGenerateAll pEcho iOk stRun).results[m]? = some r' ∧
        r'.jsonPrompt = some jm ∧
        jGet jm "character_id" = (pinIdentity (promptJ "hero_01")).character_id ∧
        jGet jm "appearance" = (pinIdentity (promptJ "hero_01")).appearance :=
  batch_identity_consistency pEcho iOk stRun (by decide) rfl stRun_ids
    (promptJ "hero_01") rfl (by decide)
    (fun _ _ _ => ⟨echoJ, rfl⟩)
    (fun _ j _ h2 => by
      have h2' : (Except.ok echoJ : Except String Json) = Except.ok j := h2
      injection h2' with h
      subst h
      exact ⟨rfl, rfl⟩)

end AutoBanana
